import Mathlib

set_option maxHeartbeats 1000000

/-!
Shallow embedding of the command bridge of mcp-ui-bridge (Python),
src/mcp-ui-bridge-python/mcp_ui_bridge_python/mcp_server.py, together with
the data model it uses (mcp_ui_bridge_python/models).  Driver and extractor
collaborators are modelled as records of result-valued functions; a call that
can raise a Python exception is modelled in the Except monad, with the
try/except blocks of the source embedded as explicit handlers.
-/

/-- Error kinds of the driver side, models PlaywrightErrorType in models/enums.py. -/
inductive PwErr where
  | PageNotAvailable
  | ElementNotFound
  | Timeout
  | NavigationFailed
  | ActionFailed
  | BrowserLaunchFailed
  | BrowserCloseFailed
  | InvalidInput
  | NotInitialized
  | OptionNotFound
  | AttributeNotFound
  | Unknown
deriving DecidableEq, Repr

/-- Error kinds of the extraction side, models DomParserErrorType in models/enums.py. -/
inductive DpErr where
  | PageNotAvailable
  | ParsingFailed
  | ElementNotFound
  | InvalidSelector
  | Unknown
deriving DecidableEq, Repr

/-- Option entry of a select element (value and display text). -/
structure InteractiveElementOption where
  value : String
  text : String
deriving DecidableEq, Repr

/-- Modelled from the spec: the InteractiveElement record of section 3.  The
authoritative class named InteractiveElementInfo is exported by the models
package init module, which is absent from the sources (the file
models/elements.py only holds an unrelated placeholder class of the same
name).  Field names follow the camelCase keys that mcp_server.py reads from
model_dump(by_alias=True): id, elementType, label, purpose, currentValue,
isChecked, isDisabled, isReadOnly, radioGroup, options. -/
structure InteractiveElementInfo where
  id : String
  elementType : String
  label : Option String := none
  purpose : Option String := none
  currentValue : Option String := none
  isChecked : Bool := false
  isDisabled : Bool := false
  isReadOnly : Bool := false
  radioGroup : Option String := none
  options : List InteractiveElementOption := []
deriving DecidableEq, Repr

/-- Modelled from the spec: the ActionResult envelope of section 3
(success, message, data, error_type).  The authoritative pydantic class is
exported by the absent models package init module; models/actions.py only
holds a placeholder dataclass without the model_dump method that
mcp_server.py calls on it.  The opaque data payload is modelled as an
optional string. -/
structure ActionResult where
  success : Bool
  message : Option String := none
  data : Option String := none
  error_type : Option PwErr := none
deriving DecidableEq, Repr

/-- Result of the driver call get_element_state: an ActionResult whose data
payload is an InteractiveElementInfo. -/
structure StateResult where
  success : Bool
  message : Option String := none
  data : Option InteractiveElementInfo := none
  error_type : Option PwErr := none
deriving DecidableEq, Repr

/-- Models ParserResult of models/actions.py: the extraction-side envelope. -/
structure PResult (α : Type) where
  success : Bool
  message : Option String := none
  data : Option α := none
  error_type : Option DpErr := none
deriving DecidableEq, Repr

/-! ## Command parsing

Embeds the parsing block of send_command_tool_execute (mcp_server.py lines
395-421): strip the raw string, match the regular expression
(\S+)(?:\s+#([^\s]+))?(.*) against it, lower-case group 1, and tokenize
group 3 with the regular expression of quoted or plain arguments, stripping
quote characters from each token.  Strings are handled as lists of
characters. -/

/-- Whitespace test matching the \s class of the Python re module (ASCII). -/
def isWS (c : Char) : Bool :=
  c = ' ' || c = '\t' || c = '\n' || c = '\r' || c = '\x0B' || c = '\x0C'

/-- Test for the \S class: any character that is not whitespace. -/
def nonWS (c : Char) : Bool := !(isWS c)

/-- Models the Python str.strip() method: drop whitespace from both ends. -/
def pstrip (l : List Char) : List Char :=
  ((l.dropWhile isWS).reverse.dropWhile isWS).reverse

/-- Per-character lower casing, models the Python str.lower() method. -/
def lowerL (l : List Char) : List Char := l.map Char.toLower

/-- Models the Python strip of quote characters from both ends of a token,
as the source applies the strip method with the quote character. -/
def pyStripQuotes (l : List Char) : List Char :=
  ((l.dropWhile (fun c => c = '"')).reverse.dropWhile (fun c => c = '"')).reverse

theorem length_dropWhile_le (p : Char → Bool) (l : List Char) :
    (l.dropWhile p).length ≤ l.length := by
  induction l with
  | nil => simp [List.dropWhile]
  | cons c cs ih =>
    by_cases h : p c
    · simp [List.dropWhile_cons, h]; omega
    · simp [List.dropWhile_cons, h]

/-- Models the argument tokenizer of send_command_tool_execute (lines
414-418): scan with the regular expression of a double-quoted run or a
maximal run of non-whitespace, and strip quote characters from each match.
Each scan step consumes at least one character, so recursion on a fuel
bound of the input length computes the full scan; the fuel form keeps the
definition structurally recursive. -/
def tokenizeF : Nat → List Char → List String
  | _, [] => []
  | 0, _ :: _ => []
  | fuel + 1, c :: cs =>
    if isWS c then tokenizeF fuel cs
    else if c = '"' ∧ cs.takeWhile (fun d => d ≠ '"') ≠ [] ∧
        (cs.dropWhile (fun d => d ≠ '"')).head? = some '"' then
      String.mk (cs.takeWhile (fun d => d ≠ '"')) ::
        tokenizeF fuel (cs.dropWhile (fun d => d ≠ '"')).tail
    else
      String.mk (pyStripQuotes (c :: cs.takeWhile nonWS)) ::
        tokenizeF fuel (cs.dropWhile nonWS)

/-- Tokenizer at the fuel bound that always suffices. -/
def tokenize (l : List Char) : List String := tokenizeF l.length l

/-- Models ParsedCommand: lower-cased command name, optional target element
id, positional arguments. -/
structure ParsedCommand where
  name : String
  elementId : Option String := none
  args : List String := []
deriving DecidableEq, Repr

/-- Embeds the regular-expression match and argument split of
send_command_tool_execute on a character list: group 1 is the maximal
leading run of non-whitespace, the optional group matches when the name is
followed by whitespace, then the hash character, then at least one
non-whitespace character, and group 3 is the remaining text up to a newline
character.  Returns none exactly when the stripped input is empty, the one
case in which re.match fails. -/
def parseCmdL (l : List Char) : Option ParsedCommand :=
  let s := pstrip l
  if s = [] then none
  else
    let nameL := s.takeWhile nonWS
    let r1 := s.dropWhile nonWS
    let ws1 := r1.takeWhile isWS
    let r2 := r1.dropWhile isWS
    if ws1 ≠ [] ∧ r2.head? = some '#' ∧ r2.tail.takeWhile nonWS ≠ [] then
      let idL := r2.tail.takeWhile nonWS
      let r3 := r2.tail.dropWhile nonWS
      let g3 := r3.takeWhile (fun c => c ≠ '\n')
      some ⟨String.mk (lowerL nameL), some (String.mk idL), tokenize (pstrip g3)⟩
    else
      let g3 := r1.takeWhile (fun c => c ≠ '\n')
      some ⟨String.mk (lowerL nameL), none, tokenize (pstrip g3)⟩

/-- Command parser on strings, the entry point used by the dispatcher. -/
def parseCommand (s : String) : Option ParsedCommand := parseCmdL s.data

/-! ## Driver, handlers, and dispatch events

The driver collaborator (PlaywrightController) is external; each method
returns an ActionResult.  A call runs Python code that may raise, so each
method is modelled in the Except monad over an exception message.  The
dispatcher is instrumented with an event trace recording which collaborator
calls it performs, so that claims about calls not being made are statable. -/

/-- Exception carrying its message, models a raised Python exception. -/
abbrev Exn := String

/-- Model of the PlaywrightController methods the dispatcher calls. -/
structure Driver where
  click : String → Except Exn ActionResult
  type_text : String → String → Except Exn ActionResult
  select_option : String → String → Except Exn ActionResult
  check_element : String → Except Exn ActionResult
  uncheck_element : String → Except Exn ActionResult
  select_radio_button : String → String → Except Exn ActionResult
  get_element_state : String → Except Exn StateResult

/-- Parameters passed to a custom handler, models CustomActionHandlerParams
(element, command_args; the automation handle is part of the handler
closure). -/
structure HandlerParams where
  element : Option InteractiveElementInfo
  command_args : List String
deriving DecidableEq, Repr

/-- Modelled from the spec: the CustomActionHandler record of section 3
(command name keyed externally, handler function, override flag).  The
authoritative pydantic class is exported by the absent models package init
module; mcp_server.py reads its handler and override_core_behavior fields. -/
structure CustomActionHandler where
  handler : HandlerParams → Except Exn ActionResult
  override_core_behavior : Bool := false

/-- Events recorded while dispatching one command. -/
inductive DispatchEvent where
  | clickCall (id : String)
  | typeTextCall (id text : String)
  | selectOptionCall (id value : String)
  | checkCall (id : String)
  | uncheckCall (id : String)
  | radioCall (id value : String)
  | stateCall (id : String)
  | handlerCall (name : String)
deriving DecidableEq, Repr

/-- Built-in core action calls: every driver call other than the element
state fetch. -/
def DispatchEvent.isCoreAction : DispatchEvent → Bool
  | .clickCall _ => true
  | .typeTextCall _ _ => true
  | .selectOptionCall _ _ => true
  | .checkCall _ => true
  | .uncheckCall _ => true
  | .radioCall _ _ => true
  | .stateCall _ => false
  | .handlerCall _ => false

/-- Names of the built-in core commands checked at mcp_server.py line 483. -/
def coreNames : List String := ["click", "type", "select", "check", "uncheck", "choose"]

/-- Renders an optional message the way a Python f-string renders None. -/
def optMsg : Option String → String
  | some s => s
  | none => "None"

/-- Envelope returned when server components are not initialized. -/
def notInitResult : ActionResult :=
  { success := false, message := some ("Server components not initialized."),
    error_type := some .NotInitialized }

/-- Envelope returned when the command string does not match the grammar. -/
def parseFailResult : ActionResult :=
  { success := false, message := some ("Invalid command string format."),
    error_type := some .InvalidInput }

/-- Envelope returned when the element state fetch for a custom handler
reports failure (mcp_server.py lines 440-447). -/
def stateFailResult (eid : String) (st : StateResult) : ActionResult :=
  { success := false,
    message := some ("Failed to get element state for #" ++ eid ++ ": " ++ optMsg st.message),
    error_type := some (st.error_type.getD .ElementNotFound) }

/-- Envelope returned when a custom handler raises (lines 468-474). -/
def handlerFailResult (name : String) (e : Exn) : ActionResult :=
  { success := false,
    message := some ("Error executing custom handler for \"" ++ name ++ "\": " ++ e),
    error_type := some .ActionFailed }

/-- Envelope returned when a core command lacks a target element id
(lines 483-489). -/
def idRequiredResult (name : String) : ActionResult :=
  { success := false,
    message := some ("Core command \"" ++ name ++ "\" requires an element ID."),
    error_type := some .InvalidInput }

/-- Envelope returned for an unrecognized command (lines 513-519). -/
def unrecognizedResult (name : String) : ActionResult :=
  { success := false,
    message := some ("Command \"" ++ name ++ "\" is not a recognized core command and no custom handler is registered for it."),
    error_type := some .InvalidInput }

/-- Envelope of the final else branch (lines 520-526), reachable in the
source only if a registered handler name escaped the earlier branch. -/
def notExecutedResult (name : String) : ActionResult :=
  { success := false,
    message := some ("Command \"" ++ name ++ "\" was not executed. It may be a custom command with overrideCoreBehavior=false that doesn't match a core action."),
    error_type := some .InvalidInput }

/-- Embeds the custom handler invocation with its try/except (lines
455-474): a handler exception is caught and converted, so this step never
propagates an exception. -/
def runCustomHandler (ch : CustomActionHandler) (pc : ParsedCommand)
    (target : Option InteractiveElementInfo) (pre : List DispatchEvent) :
    Except Exn ActionResult × List DispatchEvent :=
  match ch.handler ⟨target, pc.args⟩ with
  | .ok r => (.ok r, pre ++ [.handlerCall pc.name])
  | .error e => (.ok (handlerFailResult pc.name e), pre ++ [.handlerCall pc.name])

/-- Embeds the tail of the core command chain (lines 513-526): reached when
no elif of the chain fired; an absent registry entry gives the unrecognized
command envelope, otherwise the not-executed envelope. -/
def coreFallback (lookup : String → Option CustomActionHandler)
    (pc : ParsedCommand) : Except Exn ActionResult × List DispatchEvent :=
  if (lookup pc.name).isNone then (.ok (unrecognizedResult pc.name), [])
  else (.ok (notExecutedResult pc.name), [])

/-- Embeds the core command chain of send_command_tool_execute (lines
482-526).  Driver calls are not wrapped in any try/except in the source, so
a raised exception propagates (the Except error passes through).  With no
element id, every elif guard of the chain is falsified, so the function
either rejects a core command for its missing id (lines 483-489) or falls
to the chain tail; with an element id, the elifs test the name in source
order, where a type or select command without arguments falls through to
the chain tail. -/
def coreDispatch (lookup : String → Option CustomActionHandler) (driver : Driver)
    (pc : ParsedCommand) : Except Exn ActionResult × List DispatchEvent :=
  match pc.elementId with
  | none =>
    if pc.name ∈ coreNames then (.ok (idRequiredResult pc.name), [])
    else coreFallback lookup pc
  | some eid =>
    if pc.name = "click" then (driver.click eid, [.clickCall eid])
    else if pc.name = "type" then
      match pc.args with
      | t :: _ => (driver.type_text eid t, [.typeTextCall eid t])
      | [] => coreFallback lookup pc
    else if pc.name = "select" then
      match pc.args with
      | v :: _ => (driver.select_option eid v, [.selectOptionCall eid v])
      | [] => coreFallback lookup pc
    else if pc.name = "check" then (driver.check_element eid, [.checkCall eid])
    else if pc.name = "uncheck" then (driver.uncheck_element eid, [.uncheckCall eid])
    else if pc.name = "choose" then
      (driver.select_radio_button eid (pc.args.headD eid), [.radioCall eid (pc.args.headD eid)])
    else coreFallback lookup pc

/-- Embeds send_command_tool_execute (mcp_server.py lines 381-528): parse
the command, look the lower-cased name up in the custom handler registry,
run the custom handler branch when an entry exists (fetching the element
state first when a target id was supplied), otherwise fall to the core
command chain.  Returns the final result together with the trace of
collaborator calls. -/
def sendCommandExecute (lookup : String → Option CustomActionHandler)
    (driver : Driver) (ready : Bool) (cmd : String) :
    Except Exn ActionResult × List DispatchEvent :=
  if !ready then (.ok notInitResult, [])
  else
    match parseCommand cmd with
    | none => (.ok parseFailResult, [])
    | some pc =>
      match lookup pc.name with
      | some ch =>
        match pc.elementId with
        | some eid =>
          match driver.get_element_state eid with
          | .error e => (.error e, [.stateCall eid])
          | .ok st =>
            if st.success ∧ st.data.isSome then
              runCustomHandler ch pc st.data [.stateCall eid]
            else
              (.ok (stateFailResult eid st), [.stateCall eid])
        | none => runCustomHandler ch pc none []
      | none => coreDispatch lookup driver pc

/-! ## Screen snapshot assembler

Embeds get_current_screen_data_execute (mcp_server.py lines 169-231) and
get_current_screen_actions_execute (lines 233-379).  The extractor
collaborator (DomParser) is external; its two methods return ParserResult
values and may raise.  The try/except of each tool body is embedded as an
explicit handler. -/

/-- JSON value strings of the driver error kinds (models the .value used at
serialization time, enums.py). -/
def PwErr.value : PwErr → String
  | .PageNotAvailable => "PageNotAvailable"
  | .ElementNotFound => "ElementNotFound"
  | .Timeout => "Timeout"
  | .NavigationFailed => "NavigationFailed"
  | .ActionFailed => "ActionFailed"
  | .BrowserLaunchFailed => "BrowserLaunchFailed"
  | .BrowserCloseFailed => "BrowserCloseFailed"
  | .InvalidInput => "InvalidInput"
  | .NotInitialized => "NotInitialized"
  | .OptionNotFound => "OptionNotFound"
  | .AttributeNotFound => "AttributeNotFound"
  | .Unknown => "UnknownPlaywrightError"

/-- JSON value strings of the extraction error kinds (enums.py). -/
def DpErr.value : DpErr → String
  | .PageNotAvailable => "PageNotAvailable"
  | .ParsingFailed => "ParsingFailed"
  | .ElementNotFound => "ElementNotFound"
  | .InvalidSelector => "InvalidSelector"
  | .Unknown => "UnknownParserError"

/-- Structured data payload of the extractor: the four relayed collections
(containers, regions, status messages, loading indicators); their entries
are relayed opaquely and modelled as strings. -/
structure StructuredData where
  containers : List String := []
  regions : List String := []
  status_messages : List String := []
  loading_indicators : List String := []
deriving DecidableEq, Repr

/-- Model of the DomParser methods the assembler calls. -/
structure DomParser where
  get_structured_data : Except Exn (PResult StructuredData)
  get_interactive_elements_with_state : Except Exn (PResult (List InteractiveElementInfo))

/-- Embeds a Python try/except block around an Except computation. -/
def tryE (x : Except Exn α) (h : Exn → Except Exn α) : Except Exn α :=
  match x with
  | .ok a => .ok a
  | .error e => h e

/-- Envelope of the get_current_screen_data tool. -/
structure ScreenDataEnvelope where
  success : Bool
  message : Option String := none
  error_type : Option String := none
  current_url : Option String := none
  structured_data : Option StructuredData := none
  interactive_elements : Option (List InteractiveElementInfo) := none
  parser_message_structured : Option (Option String) := none
  parser_message_interactive : Option (Option String) := none
deriving DecidableEq, Repr

/-- Embeds get_current_screen_data_execute (lines 169-231).  The structured
payload defaults to the empty containers when the structured read reports
failure (the data dict, when present, has its four keys and is truthy); the
element payload defaults to the empty list when the element read reports
failure or yields no data (an empty list is falsy in the source, giving the
same empty payload).  The envelope built on this path always carries
success true and no error kind; extractor failure only shows through the
relayed parser messages. -/
def screenDataBody (pageOpen : Bool) (url : String) (dp : DomParser) :
    Except Exn ScreenDataEnvelope :=
  if !pageOpen then
    .ok { success := false,
          message := some ("Page is closed or not available. Cannot retrieve screen data."),
          error_type := some (PwErr.PageNotAvailable.value) }
  else
    match dp.get_structured_data with
    | .error e => .error e
    | .ok sdr =>
      match dp.get_interactive_elements_with_state with
      | .error e => .error e
      | .ok ier =>
        .ok { success := true, current_url := some url,
              structured_data := some (match sdr.data with
                | some d => if sdr.success then d else {}
                | none => {}),
              interactive_elements := some (match ier.data with
                | some l => if ier.success ∧ l ≠ [] then l else []
                | none => []),
              parser_message_structured := some sdr.message,
              parser_message_interactive := some ier.message }

def getCurrentScreenDataExecute (ready pageOpen : Bool) (url : String)
    (dp : DomParser) : Except Exn ScreenDataEnvelope :=
  if !ready then
    .ok { success := false, message := some ("Server components not initialized."),
          error_type := some (PwErr.NotInitialized.value) }
  else
    tryE (screenDataBody pageOpen url dp)
      (fun e => .ok { success := false,
                      message := some ("Error fetching screen data: " ++ e),
                      error_type := some (PwErr.ActionFailed.value) })

/-- One action descriptor of the get_current_screen_actions tool; fields
that a given branch of the source does not put into its dict are none. -/
structure ActionDescriptor where
  id : String
  label : Option String := none
  elementType : String
  purpose : Option String := none
  commandHint : String
  currentValue : Option String := none
  isChecked : Option Bool := none
  isDisabled : Option Bool := none
  isReadOnly : Option Bool := none
  options : Option (List InteractiveElementOption) := none
  radioGroup : Option String := none
deriving DecidableEq, Repr

/-- Python truthiness of an optional string (None and the empty string are
falsy). -/
def pyTruthy : Option String → Bool
  | some s => s ≠ ""
  | none => false

/-- Models the Python startswith test on strings at the character level. -/
def pyStartsWith (s pre : String) : Bool :=
  s.data.take pre.data.length = pre.data

/-- Click descriptor (lines 289-299). -/
def clickDescriptor (el : InteractiveElementInfo) : ActionDescriptor :=
  { id := el.id, label := el.label, elementType := el.elementType,
    purpose := el.purpose, commandHint := "click #" ++ el.id,
    currentValue := el.currentValue, isChecked := some el.isChecked,
    isDisabled := some el.isDisabled, isReadOnly := some el.isReadOnly }

/-- Type descriptor (lines 311-321). -/
def typeDescriptor (el : InteractiveElementInfo) : ActionDescriptor :=
  { id := el.id, label := el.label, elementType := el.elementType,
    purpose := el.purpose,
    commandHint := "type #" ++ el.id ++ " \"<text_to_type>\"",
    currentValue := el.currentValue, isChecked := some el.isChecked,
    isDisabled := some el.isDisabled, isReadOnly := some el.isReadOnly }

/-- Select descriptor (lines 325-335); carries the option list and no
checked flag. -/
def selectDescriptor (el : InteractiveElementInfo) : ActionDescriptor :=
  { id := el.id, label := el.label, elementType := el.elementType,
    purpose := el.purpose,
    commandHint := "select #" ++ el.id ++ " \"<value_to_select>\"",
    currentValue := el.currentValue,
    options := some (el.options.map (fun o => ⟨o.value, o.text⟩)),
    isDisabled := some el.isDisabled, isReadOnly := some el.isReadOnly }

/-- Checkbox descriptor (lines 339-349); the hint depends on the current
checked state. -/
def checkboxDescriptor (el : InteractiveElementInfo) : ActionDescriptor :=
  { id := el.id, label := el.label, elementType := el.elementType,
    purpose := el.purpose,
    commandHint := if el.isChecked then "uncheck #" ++ el.id else "check #" ++ el.id,
    currentValue := el.currentValue, isChecked := some el.isChecked,
    isDisabled := some el.isDisabled, isReadOnly := some el.isReadOnly }

/-- Radio descriptor (lines 352-367); the hint gains an in_group suffix
when a truthy radio group is known. -/
def radioDescriptor (el : InteractiveElementInfo) : ActionDescriptor :=
  { id := el.id, label := el.label, radioGroup := el.radioGroup,
    elementType := el.elementType, purpose := el.purpose,
    commandHint := "choose #" ++ el.id ++
      (if pyTruthy el.radioGroup then " in_group " ++ el.radioGroup.getD "" else ""),
    currentValue := el.currentValue, isChecked := some el.isChecked,
    isDisabled := some el.isDisabled, isReadOnly := some el.isReadOnly }

/-- Embeds the per-element descriptor generation of
get_current_screen_actions_execute (lines 275-368): the five independent
rule blocks append, in source order, a click descriptor, a type descriptor,
a select descriptor, a checkbox descriptor and a radio descriptor when
their conditions hold. -/
def genActionsForElement (el : InteractiveElementInfo) : List ActionDescriptor :=
  (if el.elementType = "button" ∨ el.elementType = "input-button" ∨
      el.elementType = "input-submit" ∨ el.elementType = "a" ∨
      (el.elementType ≠ "" ∧ ¬ pyStartsWith el.elementType ("input-")) then
    [clickDescriptor el] else []) ++
  (if (pyStartsWith el.elementType ("input-") ∧
      el.elementType ∉ ["input-button", "input-submit", "input-checkbox", "input-radio",
        "input-file", "input-reset", "input-image", "input-color", "input-range",
        "input-date", "input-month", "input-week", "input-time", "input-datetime-local"]) ∨
      el.elementType = "textarea" then
    [typeDescriptor el] else []) ++
  (if el.elementType = "select" ∧ el.options ≠ [] then
    [selectDescriptor el] else []) ++
  (if el.elementType = "input-checkbox" then
    [checkboxDescriptor el] else []) ++
  (if el.elementType = "input-radio" then
    [radioDescriptor el] else [])

/-- Envelope of the get_current_screen_actions tool. -/
structure ScreenActionsEnvelope where
  success : Bool
  message : Option String := none
  actions : List ActionDescriptor := []
  error_type : Option String := none
deriving DecidableEq, Repr

/-- Failure envelope when the element read reports no usable data
(lines 264-272). -/
def actionsFetchFail (ier : PResult (List InteractiveElementInfo)) :
    ScreenActionsEnvelope :=
  { success := false,
    message := some ("Failed to get interactive elements: " ++ optMsg ier.message),
    actions := [],
    error_type := some (match ier.error_type with
      | some t => t.value
      | none => PwErr.ActionFailed.value) }

/-- Embeds get_current_screen_actions_execute (lines 233-379).  An empty
element list is falsy in the source and takes the failure branch. -/
def screenActionsBody (dp : DomParser) : Except Exn ScreenActionsEnvelope :=
  match dp.get_interactive_elements_with_state with
  | .error e => .error e
  | .ok ier =>
    match ier.data with
    | some l =>
      if ier.success ∧ l ≠ [] then
        .ok { success := true, actions := l.flatMap genActionsForElement }
      else
        .ok (actionsFetchFail ier)
    | none => .ok (actionsFetchFail ier)

def getCurrentScreenActionsExecute (ready pageOpen : Bool) (dp : DomParser) :
    Except Exn ScreenActionsEnvelope :=
  if !ready then
    .ok { success := false, message := some ("Server components not initialized."),
          actions := [], error_type := some (PwErr.NotInitialized.value) }
  else if !pageOpen then
    .ok { success := false, message := some ("Page is closed. Cannot retrieve screen actions."),
          actions := [], error_type := some (PwErr.PageNotAvailable.value) }
  else
    tryE (screenActionsBody dp)
      (fun e => .ok { success := false,
                      message := some ("Error fetching screen actions: " ++ e),
                      actions := [], error_type := some (PwErr.ActionFailed.value) })

/-! ## Session lifecycle: initialization

Embeds initialize_browser_and_dependencies (mcp_server.py lines 57-165) as
a function of an environment describing the outcome of each collaborator
step.  The outcome records whether the function reports success (returns
the three components rather than the all-None triple), whether the driver
object was created, and how many times close was called on it. -/

/-- Outcomes of the collaborator steps during initialization. -/
structure InitEnv where
  ctorRaises : Bool := false
  launchResult : Except Exn ActionResult
  pageAfterLaunch : Bool := true
  targetUrl : Option String := none
  navResult : Except Exn ActionResult
  domParserRaises : Option Exn := none
  aiRaises : Option Exn := none

/-- What initialization did: report success, driver creation, close calls. -/
structure InitOutcome where
  success : Bool
  created : Bool
  closeCalls : Nat
deriving DecidableEq, Repr

/-- Embeds initialize_browser_and_dependencies: constructor failure returns
before any close; after creation, a launch exception, a failed or pageless
launch, a navigation exception or failed navigation (only when a target url
is configured), a DomParser constructor exception, or an
AutomationInterface constructor exception each close the driver exactly
once and report failure; otherwise all components are returned. -/
def initBrowserAndDependencies (env : InitEnv) : InitOutcome :=
  if env.ctorRaises then ⟨false, false, 0⟩
  else
    match env.launchResult with
    | .error _ => ⟨false, true, 1⟩
    | .ok lr =>
      if !lr.success || !env.pageAfterLaunch then ⟨false, true, 1⟩
      else
        if (match env.targetUrl with
            | some _ =>
              match env.navResult with
              | .error _ => true
              | .ok nr => !nr.success
            | none => false) then ⟨false, true, 1⟩
        else
          match env.domParserRaises with
          | some _ => ⟨false, true, 1⟩
          | none =>
            match env.aiRaises with
            | some _ => ⟨false, true, 1⟩
            | none => ⟨true, true, 0⟩

/-! ## Startup handler registration

Embeds the handler-registration effect of run_mcp_server (mcp_server.py
lines 532-616).  The server options carry a list of custom action handlers
(configuration surface; the options class lives in the absent models
package init module, its custom_action_handlers field is exercised by the
bundled example server).  The body of run_mcp_server initializes the
browser, builds the tool table and starts FastMCP; it never writes the
module-level custom_action_handler_map, which keeps its initial empty
value, so the registry the dispatcher consults is empty regardless of the
options. -/

/-- Modelled from the spec: server options restricted to the handler list
(section 6 configuration surface). -/
structure McpServerOptions where
  custom_action_handlers : List (String × CustomActionHandler) := []

/-- Registry contents after run_mcp_server startup: the source contains no
registration step, so the lookup map is the constant none map. -/
def runMcpServerHandlerMap (_opts : McpServerOptions) :
    String → Option CustomActionHandler := fun _ => none

/-! ## Shared concrete instances used by witnesses and counterexamples -/

/-- A plain successful action result. -/
def okActionResult : ActionResult := { success := true }

/-- A driver whose calls all return plain successful results. -/
def trivDriver : Driver :=
  { click := fun _ => .ok okActionResult,
    type_text := fun _ _ => .ok okActionResult,
    select_option := fun _ _ => .ok okActionResult,
    check_element := fun _ => .ok okActionResult,
    uncheck_element := fun _ => .ok okActionResult,
    select_radio_button := fun _ _ => .ok okActionResult,
    get_element_state := fun i => .ok { success := true, data := some { id := i, elementType := "button" } } }

/-! ## Claims about initialization (C9) -/

/-- C9: on every failure path of initialize_browser_and_dependencies that
occurs after the PlaywrightController has been created (launch failure or
exception, failed or pageless launch result, navigation failure or
exception, DomParser or AutomationInterface constructor exception), the
close method of the driver is invoked exactly once before the function
reports failure. -/
theorem c9_failed_init_closes_driver (env : InitEnv)
    (hctor : env.ctorRaises = false)
    (hfail : (initBrowserAndDependencies env).success = false) :
    (initBrowserAndDependencies env).created = true ∧
    (initBrowserAndDependencies env).closeCalls = 1 := by
  revert hfail
  unfold initBrowserAndDependencies
  rw [hctor]
  simp only [Bool.false_eq_true, if_false]
  split
  · intro _
    exact ⟨rfl, rfl⟩
  · split
    · intro _
      exact ⟨rfl, rfl⟩
    · split
      · intro _
        exact ⟨rfl, rfl⟩
      · split
        · intro _
          exact ⟨rfl, rfl⟩
        · split
          · intro _
            exact ⟨rfl, rfl⟩
          · intro h
            simp at h

/-- Witness for C9 at a concrete environment with a failed launch result. -/
theorem c9_failed_init_closes_driver_witness :
    (initBrowserAndDependencies
      { ctorRaises := false,
        launchResult := .ok { success := false, message := some ("launch failed") },
        pageAfterLaunch := true, targetUrl := none,
        navResult := .ok okActionResult }).created = true ∧
    (initBrowserAndDependencies
      { ctorRaises := false,
        launchResult := .ok { success := false, message := some ("launch failed") },
        pageAfterLaunch := true, targetUrl := none,
        navResult := .ok okActionResult }).closeCalls = 1 :=
  c9_failed_init_closes_driver _ rfl rfl

/-! ## Claims about action descriptors (C10) -/

/-- C10: every interactive element whose elementType is non-empty and does
not start with the input- prefix receives a click descriptor with hint
click #id, emitted as the first descriptor of that element; in particular a
textarea yields exactly the click descriptor followed by the type
descriptor, and a select element with at least one option yields exactly
the click descriptor followed by the select descriptor. -/
theorem c10_click_descriptor_for_non_input (el : InteractiveElementInfo) :
    (el.elementType ≠ "" ∧ ¬ pyStartsWith el.elementType ("input-") →
      (genActionsForElement el).head? = some (clickDescriptor el) ∧
      (clickDescriptor el).commandHint = "click #" ++ el.id) ∧
    (el.elementType = "textarea" →
      genActionsForElement el = [clickDescriptor el, typeDescriptor el]) ∧
    (el.elementType = "select" ∧ el.options ≠ [] →
      genActionsForElement el = [clickDescriptor el, selectDescriptor el]) := by
  refine ⟨?_, ?_, ?_⟩
  · rintro ⟨h1, h2⟩
    refine ⟨?_, rfl⟩
    simp only [genActionsForElement]
    rw [if_pos (Or.inr (Or.inr (Or.inr (Or.inr ⟨h1, h2⟩))))]
    simp
  · intro h
    simp only [genActionsForElement]
    rw [h]
    rw [if_pos (by decide :
      ("textarea" : String) = "button" ∨ ("textarea" : String) = "input-button" ∨
      ("textarea" : String) = "input-submit" ∨ ("textarea" : String) = "a" ∨
      (("textarea" : String) ≠ "" ∧ ¬ pyStartsWith ("textarea") ("input-")))]
    rw [if_pos (Or.inr rfl)]
    rw [if_neg (by rintro ⟨h1, -⟩; exact absurd h1 (by decide))]
    rw [if_neg (by decide : ¬ ("textarea" : String) = "input-checkbox")]
    rw [if_neg (by decide : ¬ ("textarea" : String) = "input-radio")]
    rfl
  · rintro ⟨h, hop⟩
    simp only [genActionsForElement]
    rw [h]
    rw [if_pos (by decide :
      ("select" : String) = "button" ∨ ("select" : String) = "input-button" ∨
      ("select" : String) = "input-submit" ∨ ("select" : String) = "a" ∨
      (("select" : String) ≠ "" ∧ ¬ pyStartsWith ("select") ("input-")))]
    rw [if_neg (by rintro (⟨h1, -⟩ | h1) <;> exact absurd h1 (by decide))]
    rw [if_pos ⟨rfl, hop⟩]
    rw [if_neg (by decide : ¬ ("select" : String) = "input-checkbox")]
    rw [if_neg (by decide : ¬ ("select" : String) = "input-radio")]
    rfl

/-- Witness for C10 at a concrete textarea element and a concrete select
element with one option. -/
theorem c10_click_descriptor_for_non_input_witness :
    genActionsForElement { id := "t1", elementType := "textarea" } =
      [clickDescriptor { id := "t1", elementType := "textarea" },
       typeDescriptor { id := "t1", elementType := "textarea" }] ∧
    genActionsForElement
        { id := "s1", elementType := "select",
          options := [{ value := "v", text := "V" }] } =
      [clickDescriptor
        { id := "s1", elementType := "select",
          options := [{ value := "v", text := "V" }] },
       selectDescriptor
        { id := "s1", elementType := "select",
          options := [{ value := "v", text := "V" }] }] :=
  ⟨(c10_click_descriptor_for_non_input _).2.1 rfl,
   (c10_click_descriptor_for_non_input _).2.2 ⟨rfl, by decide⟩⟩

/-! ## Claims about the dispatcher -/

/-- C7: a built-in core command with no registered custom handler and no
target element id is rejected with the id-required InvalidInput envelope
and an empty collaborator-call trace (no driver call); navigate is exempt
from this element-id requirement and instead falls to the unrecognized
branch. -/
theorem c7_core_command_requires_element_id
    (lookup : String → Option CustomActionHandler) (driver : Driver)
    (cmd : String) (pc : ParsedCommand)
    (hp : parseCommand cmd = some pc) (hch : lookup pc.name = none)
    (hid : pc.elementId = none) :
    (pc.name ∈ coreNames →
      sendCommandExecute lookup driver true cmd = (.ok (idRequiredResult pc.name), []) ∧
      (idRequiredResult pc.name).success = false ∧
      (idRequiredResult pc.name).error_type = some PwErr.InvalidInput) ∧
    (pc.name = "navigate" →
      sendCommandExecute lookup driver true cmd = (.ok (unrecognizedResult pc.name), [])) := by
  constructor
  · intro hcore
    refine ⟨?_, rfl, rfl⟩
    unfold sendCommandExecute
    simp only [Bool.not_true, Bool.false_eq_true, if_false, hp, hch]
    unfold coreDispatch
    simp only [hid]
    rw [if_pos hcore]
  · intro hnav
    unfold sendCommandExecute
    simp only [Bool.not_true, Bool.false_eq_true, if_false, hp, hch]
    unfold coreDispatch
    simp only [hid]
    rw [if_neg (by rw [hnav]; decide)]
    unfold coreFallback
    simp only [hch, Option.isNone_none, if_true]

/-- Witness for C7 at the command string type with no element id. -/
theorem c7_core_command_requires_element_id_witness :
    sendCommandExecute (fun _ => none) trivDriver true ("type") =
      (.ok (idRequiredResult ("type")), []) :=
  ((c7_core_command_requires_element_id (fun _ => none) trivDriver ("type")
    { name := "type", elementId := none, args := [] } rfl rfl rfl).1 (by decide)).1

/-- C8: a custom handler exception is caught and converted to the
ActionFailed envelope carrying the exception message, never propagating;
and when a target element id was supplied and the state fetch reports
failure, the dispatcher short-circuits with the state-failure envelope
without invoking the handler. -/
theorem c8_handler_exception_caught_state_failure_short_circuits
    (lookup : String → Option CustomActionHandler) (driver : Driver)
    (cmd : String) (pc : ParsedCommand) (ch : CustomActionHandler)
    (hp : parseCommand cmd = some pc) (hch : lookup pc.name = some ch) :
    (∀ e, pc.elementId = none → ch.handler ⟨none, pc.args⟩ = .error e →
      sendCommandExecute lookup driver true cmd =
        (.ok (handlerFailResult pc.name e), [.handlerCall pc.name])) ∧
    (∀ eid st e, pc.elementId = some eid →
      driver.get_element_state eid = .ok st → st.success = true →
      st.data.isSome = true → ch.handler ⟨st.data, pc.args⟩ = .error e →
      sendCommandExecute lookup driver true cmd =
        (.ok (handlerFailResult pc.name e), [.stateCall eid, .handlerCall pc.name])) ∧
    (∀ eid st, pc.elementId = some eid → driver.get_element_state eid = .ok st →
      ¬(st.success = true ∧ st.data.isSome = true) →
      sendCommandExecute lookup driver true cmd =
        (.ok (stateFailResult eid st), [.stateCall eid])) ∧
    (∀ e, (handlerFailResult pc.name e).message =
        some ("Error executing custom handler for \"" ++ pc.name ++ "\": " ++ e) ∧
      (handlerFailResult pc.name e).error_type = some PwErr.ActionFailed ∧
      (handlerFailResult pc.name e).success = false) := by
  refine ⟨?_, ?_, ?_, fun e => ⟨rfl, rfl, rfl⟩⟩
  · intro e hid hh
    unfold sendCommandExecute runCustomHandler
    simp only [Bool.not_true, Bool.false_eq_true, if_false, hp, hch, hid, hh]
    rfl
  · intro eid st e hid hst hsucc hdata hh
    unfold sendCommandExecute runCustomHandler
    simp only [Bool.not_true, Bool.false_eq_true, if_false, hp, hch, hid, hst]
    rw [if_pos ⟨hsucc, hdata⟩]
    simp only [hh]
    rfl
  · intro eid st hid hst hfailed
    unfold sendCommandExecute
    simp only [Bool.not_true, Bool.false_eq_true, if_false, hp, hch, hid, hst]
    rw [if_neg hfailed]

/-- A custom handler that always raises, used by witnesses. -/
def raisingHandler : CustomActionHandler :=
  { handler := fun _ => .error ("handler blew up") }

/-- Registry with the raising handler registered under the name note. -/
def noteRaisingLookup : String → Option CustomActionHandler :=
  fun n => if n = "note" then some raisingHandler else none

/-- Witness for C8 at a concrete raising handler with no element id. -/
theorem c8_handler_exception_caught_state_failure_short_circuits_witness :
    sendCommandExecute noteRaisingLookup trivDriver true ("note") =
      (.ok (handlerFailResult ("note") ("handler blew up")), [.handlerCall ("note")]) :=
  (c8_handler_exception_caught_state_failure_short_circuits noteRaisingLookup trivDriver
    ("note") { name := "note", elementId := none, args := [] } raisingHandler
    rfl rfl).1 ("handler blew up") rfl rfl

/-- C1: whenever the lower-cased command name has a registry entry at
dispatch time, the dispatcher runs that handler (after an element state
fetch when an id was supplied) and returns the handler result verbatim,
performing no built-in core driver action, regardless of the
override_core_behavior flag and of membership in the built-in set. -/
theorem c1_custom_handler_is_terminal
    (lookup : String → Option CustomActionHandler) (driver : Driver)
    (cmd : String) (pc : ParsedCommand) (ch : CustomActionHandler)
    (st : StateResult) (r : ActionResult)
    (hp : parseCommand cmd = some pc) (hch : lookup pc.name = some ch)
    (hrun : (pc.elementId = none ∧ ch.handler ⟨none, pc.args⟩ = .ok r) ∨
      (∃ eid, pc.elementId = some eid ∧ driver.get_element_state eid = .ok st ∧
        st.success = true ∧ st.data.isSome = true ∧
        ch.handler ⟨st.data, pc.args⟩ = .ok r)) :
    (sendCommandExecute lookup driver true cmd).1 = .ok r ∧
    ∀ ev ∈ (sendCommandExecute lookup driver true cmd).2, ev.isCoreAction = false := by
  rcases hrun with ⟨hid, hh⟩ | ⟨eid, hid, hst, hsucc, hdata, hh⟩
  · have hEq : sendCommandExecute lookup driver true cmd =
        (.ok r, [.handlerCall pc.name]) := by
      unfold sendCommandExecute runCustomHandler
      simp only [Bool.not_true, Bool.false_eq_true, if_false, hp, hch, hid, hh]
      rfl
    rw [hEq]
    exact ⟨rfl, by simp [DispatchEvent.isCoreAction]⟩
  · have hEq : sendCommandExecute lookup driver true cmd =
        (.ok r, [.stateCall eid, .handlerCall pc.name]) := by
      unfold sendCommandExecute runCustomHandler
      simp only [Bool.not_true, Bool.false_eq_true, if_false, hp, hch, hid, hst]
      rw [if_pos ⟨hsucc, hdata⟩]
      simp only [hh]
      rfl
    rw [hEq]
    refine ⟨rfl, ?_⟩
    intro ev hev
    rcases List.mem_cons.mp hev with h | hev2
    · rw [h]
      rfl
    · rcases List.mem_cons.mp hev2 with h | hev3
      · rw [h]
        rfl
      · exact absurd hev3 (List.not_mem_nil ev)

/-- A handler for the core name click with override_core_behavior false,
returning a fixed result, used by the C1 witness. -/
def clickOverrideHandler : CustomActionHandler :=
  { handler := fun _ => .ok { success := true, message := some ("custom click ran") },
    override_core_behavior := false }

/-- Registry with the click handler registered (override flag false). -/
def clickOverrideLookup : String → Option CustomActionHandler :=
  fun n => if n = "click" then some clickOverrideHandler else none

/-- Witness for C1: a handler registered for the core name click with
override_core_behavior false is terminal even for a click command. -/
theorem c1_custom_handler_is_terminal_witness :
    (sendCommandExecute clickOverrideLookup trivDriver true ("click #b1")).1 =
      .ok { success := true, message := some ("custom click ran") } ∧
    ∀ ev ∈ (sendCommandExecute clickOverrideLookup trivDriver true ("click #b1")).2,
      ev.isCoreAction = false :=
  c1_custom_handler_is_terminal clickOverrideLookup trivDriver ("click #b1")
    { name := "click", elementId := some ("b1"), args := [] } clickOverrideHandler
    { success := true, data := some { id := "b1", elementType := "button" } }
    { success := true, message := some ("custom click ran") }
    rfl rfl
    (Or.inr ⟨("b1"), rfl, rfl, rfl, rfl, rfl⟩)

/-- C2: run_mcp_server never copies the handlers supplied in the options
into the registry the dispatcher consults, so a handler registered under
get-custom-note at startup is unreachable: the command falls to the
unrecognized branch and the handler is never invoked. -/
theorem c2_startup_registration_missing (opts : McpServerOptions)
    (h : CustomActionHandler) (driver : Driver)
    (_hreg : (("get-custom-note" : String), h) ∈ opts.custom_action_handlers) :
    sendCommandExecute (runMcpServerHandlerMap opts) driver true
        ("get-custom-note #item-1") =
      (.ok (unrecognizedResult ("get-custom-note")), []) ∧
    runMcpServerHandlerMap opts ("get-custom-note") = none :=
  ⟨rfl, rfl⟩

/-- A handler returning a fixed note payload, used by the C2 witness. -/
def noteHandler : CustomActionHandler :=
  { handler := fun _ => .ok { success := true, data := some ("note payload") } }

/-- Witness for C2 at concrete options carrying the get-custom-note
handler. -/
theorem c2_startup_registration_missing_witness :
    sendCommandExecute
        (runMcpServerHandlerMap { custom_action_handlers := [(("get-custom-note"), noteHandler)] })
        trivDriver true ("get-custom-note #item-1") =
      (.ok (unrecognizedResult ("get-custom-note")), []) :=
  (c2_startup_registration_missing
    { custom_action_handlers := [(("get-custom-note"), noteHandler)] }
    noteHandler trivDriver (List.mem_cons_self _ _)).1

/-! ## Claims about the snapshot assembler failure path (C3) -/

/-- A driver whose click method raises. -/
def boomDriver : Driver :=
  { trivDriver with click := fun _ => .error ("boom") }

/-- Counterexample for C4: a driver exception in the built-in command path
of send_command_tool_execute is not caught; the dispatch result is the
raised exception, not an envelope. -/
theorem c4_counterexample_driver_exception_propagates :
    (sendCommandExecute (fun _ => none) boomDriver true ("click #b1")).1 =
      .error ("boom") := rfl

/-- C4 amended: the two screen operations never raise outward (every
outcome is a returned envelope, internal failures included), and the
dispatcher catches custom handler exceptions, converting them to the
ActionFailed envelope; only driver exceptions raised in the built-in
command path or by the element state fetch pass outward. -/
theorem c4_amended_exception_policy :
    (∀ (ready pageOpen : Bool) (url : String) (dp : DomParser),
      ∃ env, getCurrentScreenDataExecute ready pageOpen url dp = .ok env) ∧
    (∀ (ready pageOpen : Bool) (dp : DomParser),
      ∃ env, getCurrentScreenActionsExecute ready pageOpen dp = .ok env) ∧
    (∀ (lookup : String → Option CustomActionHandler) (driver : Driver)
      (cmd : String) (pc : ParsedCommand) (ch : CustomActionHandler) (e : Exn),
      parseCommand cmd = some pc → lookup pc.name = some ch →
      pc.elementId = none → ch.handler ⟨none, pc.args⟩ = .error e →
      (sendCommandExecute lookup driver true cmd).1 =
        .ok (handlerFailResult pc.name e)) := by
  refine ⟨?_, ?_, ?_⟩
  · intro ready pageOpen url dp
    cases ready
    · exact ⟨_, rfl⟩
    · unfold getCurrentScreenDataExecute tryE
      simp only [Bool.not_true, Bool.false_eq_true, if_false]
      rcases screenDataBody pageOpen url dp with e | env
      · exact ⟨_, rfl⟩
      · exact ⟨env, rfl⟩
  · intro ready pageOpen dp
    cases ready
    · exact ⟨_, rfl⟩
    · cases pageOpen
      · exact ⟨_, rfl⟩
      · unfold getCurrentScreenActionsExecute tryE
        simp only [Bool.not_true, Bool.false_eq_true, if_false]
        rcases screenActionsBody dp with e | env
        · exact ⟨_, rfl⟩
        · exact ⟨env, rfl⟩
  · intro lookup driver cmd pc ch e hp hch hid hh
    unfold sendCommandExecute runCustomHandler
    simp only [Bool.not_true, Bool.false_eq_true, if_false, hp, hch, hid, hh]

/-- Witness for the amended C4: the raising note handler is caught and
converted, and concrete screen reads return envelopes. -/
theorem c4_amended_exception_policy_witness :
    (sendCommandExecute noteRaisingLookup trivDriver true ("note")).1 =
      .ok (handlerFailResult ("note") ("handler blew up")) :=
  c4_amended_exception_policy.2.2 noteRaisingLookup trivDriver ("note")
    { name := "note", elementId := none, args := [] } raisingHandler
    ("handler blew up") rfl rfl rfl rfl

/-! ## Claims about unrecognized-command rejection (C5) -/

/-- The id-required envelope and the unrecognized envelope always differ:
their messages have different lengths for every command name. -/
theorem idRequiredResult_ne_unrecognizedResult (n : String) :
    idRequiredResult n ≠ unrecognizedResult n := by
  intro h
  have hm := congrArg ActionResult.message h
  simp only [idRequiredResult, unrecognizedResult, Option.some.injEq] at hm
  have hl := congrArg String.length hm
  simp only [String.length_append] at hl
  have e1 : ("Core command \"").length = 14 := rfl
  have e2 : ("\" requires an element ID.").length = 25 := rfl
  have e3 : ("Command \"").length = 9 := rfl
  have e4 : ("\" is not a recognized core command and no custom handler is registered for it.").length = 78 := rfl
  rw [e1, e2, e3, e4] at hl
  omega

/-- Statement of claim C5 as written: the dispatcher yields the
unrecognized-command InvalidInput envelope exactly when the parsed name has
no registered custom handler and is neither a built-in core command nor
navigate (navigate being exempt from rejection). -/
def c5ClaimProp : Prop :=
  ∀ (lookup : String → Option CustomActionHandler) (driver : Driver)
    (cmd : String) (pc : ParsedCommand), parseCommand cmd = some pc →
    ((sendCommandExecute lookup driver true cmd).1 =
        .ok (unrecognizedResult pc.name) ↔
      (lookup pc.name = none ∧ pc.name ∉ coreNames ∧ pc.name ≠ "navigate"))

/-- Counterexample for C5: the command navigate with no registered handler
is rejected as unrecognized by the source, although the claim exempts
navigate from rejection. -/
theorem c5_counterexample_navigate_is_rejected : ¬ c5ClaimProp := by
  intro hcl
  have h := (hcl (fun _ => none) trivDriver ("navigate")
    { name := "navigate", elementId := none, args := [] } rfl).mp rfl
  exact h.2.2 rfl

/-- C5 amended: the dispatcher yields the unrecognized-command InvalidInput
envelope with no collaborator call exactly when the parsed name has no
registered custom handler and either is not one of the built-in core
commands (navigate included: navigate is exempt only from the element-id
requirement, not from rejection) or is the command type or select carrying
an element id but no argument. -/
theorem c5_amended_unrecognized_iff
    (lookup : String → Option CustomActionHandler) (driver : Driver)
    (cmd : String) (pc : ParsedCommand) (hp : parseCommand cmd = some pc) :
    sendCommandExecute lookup driver true cmd =
        (.ok (unrecognizedResult pc.name), []) ↔
      (lookup pc.name = none ∧ (pc.name ∉ coreNames ∨
        ((pc.name = "type" ∨ pc.name = "select") ∧
          pc.elementId.isSome = true ∧ pc.args = []))) := by
  unfold sendCommandExecute
  simp only [Bool.not_true, Bool.false_eq_true, if_false, hp]
  rcases hch : lookup pc.name with _ | ch
  · simp only []
    unfold coreDispatch
    rcases hid : pc.elementId with _ | eid
    · simp only []
      by_cases hcore : pc.name ∈ coreNames
      · rw [if_pos hcore]
        apply iff_of_false
        · intro hEq
          rw [Prod.mk.injEq] at hEq
          injection hEq.1 with h2
          exact idRequiredResult_ne_unrecognizedResult pc.name h2
        · rintro ⟨-, h | ⟨-, hsome, -⟩⟩
          · exact h hcore
          · simp at hsome
      · rw [if_neg hcore]
        unfold coreFallback
        simp only [hch, Option.isNone_none, if_true]
        simp [hcore]
    · simp only []
      by_cases h1 : pc.name = "click"
      · rw [if_pos h1]
        apply iff_of_false
        · intro hEq
          rw [Prod.mk.injEq] at hEq
          exact absurd hEq.2 (by simp)
        · rintro ⟨-, h | ⟨hts, -, -⟩⟩
          · exact h (by rw [h1]; decide)
          · rcases hts with h2 | h2 <;> rw [h1] at h2 <;> simp at h2
      · rw [if_neg h1]
        by_cases h2 : pc.name = "type"
        · rw [if_pos h2]
          rcases hargs : pc.args with _ | ⟨t, rest⟩
          · simp only []
            unfold coreFallback
            simp only [hch, Option.isNone_none, if_true]
            simp [h2, hid, hargs]
          · simp only []
            apply iff_of_false
            · intro hEq
              rw [Prod.mk.injEq] at hEq
              exact absurd hEq.2 (by simp)
            · rintro ⟨-, h | ⟨-, -, hnil⟩⟩
              · exact h (by rw [h2]; decide)
              · simp at hnil
        · rw [if_neg h2]
          by_cases h3 : pc.name = "select"
          · rw [if_pos h3]
            rcases hargs : pc.args with _ | ⟨v, rest⟩
            · simp only []
              unfold coreFallback
              simp only [hch, Option.isNone_none, if_true]
              simp [h3, hid, hargs]
            · simp only []
              apply iff_of_false
              · intro hEq
                rw [Prod.mk.injEq] at hEq
                exact absurd hEq.2 (by simp)
              · rintro ⟨-, h | ⟨-, -, hnil⟩⟩
                · exact h (by rw [h3]; decide)
                · simp at hnil
          · rw [if_neg h3]
            by_cases h4 : pc.name = "check"
            · rw [if_pos h4]
              apply iff_of_false
              · intro hEq
                rw [Prod.mk.injEq] at hEq
                exact absurd hEq.2 (by simp)
              · rintro ⟨-, h | ⟨hts, -, -⟩⟩
                · exact h (by rw [h4]; decide)
                · rcases hts with h5 | h5 <;> rw [h4] at h5 <;> simp at h5
            · rw [if_neg h4]
              by_cases h5 : pc.name = "uncheck"
              · rw [if_pos h5]
                apply iff_of_false
                · intro hEq
                  rw [Prod.mk.injEq] at hEq
                  exact absurd hEq.2 (by simp)
                · rintro ⟨-, h | ⟨hts, -, -⟩⟩
                  · exact h (by rw [h5]; decide)
                  · rcases hts with h6 | h6 <;> rw [h5] at h6 <;> simp at h6
              · rw [if_neg h5]
                by_cases h6 : pc.name = "choose"
                · rw [if_pos h6]
                  apply iff_of_false
                  · intro hEq
                    rw [Prod.mk.injEq] at hEq
                    exact absurd hEq.2 (by simp)
                  · rintro ⟨-, h | ⟨hts, -, -⟩⟩
                    · exact h (by rw [h6]; decide)
                    · rcases hts with h7 | h7 <;> rw [h6] at h7 <;> simp at h7
                · rw [if_neg h6]
                  unfold coreFallback
                  simp only [hch, Option.isNone_none, if_true]
                  simp [coreNames, h1, h2, h3, h4, h5, h6]
  · simp only []
    rcases hid : pc.elementId with _ | eid
    · simp only []
      unfold runCustomHandler
      rcases hh : ch.handler ⟨none, pc.args⟩ with e | r
      · simp only []
        apply iff_of_false
        · intro hEq
          rw [Prod.mk.injEq] at hEq
          exact absurd hEq.2 (by simp)
        · rintro ⟨hnone, -⟩
          simp at hnone
      · simp only []
        apply iff_of_false
        · intro hEq
          rw [Prod.mk.injEq] at hEq
          exact absurd hEq.2 (by simp)
        · rintro ⟨hnone, -⟩
          simp at hnone
    · simp only []
      rcases hst : driver.get_element_state eid with e | st
      · simp only []
        apply iff_of_false
        · intro hEq
          rw [Prod.mk.injEq] at hEq
          exact absurd hEq.1 (by simp)
        · rintro ⟨hnone, -⟩
          simp at hnone
      · simp only []
        by_cases hok : st.success = true ∧ st.data.isSome = true
        · rw [if_pos hok]
          unfold runCustomHandler
          rcases hh : ch.handler ⟨st.data, pc.args⟩ with e | r
          · simp only []
            apply iff_of_false
            · intro hEq
              rw [Prod.mk.injEq] at hEq
              exact absurd hEq.2 (by simp)
            · rintro ⟨hnone, -⟩
              simp at hnone
          · simp only []
            apply iff_of_false
            · intro hEq
              rw [Prod.mk.injEq] at hEq
              exact absurd hEq.2 (by simp)
            · rintro ⟨hnone, -⟩
              simp at hnone
        · rw [if_neg hok]
          apply iff_of_false
          · intro hEq
            rw [Prod.mk.injEq] at hEq
            exact absurd hEq.2 (by simp)
          · rintro ⟨hnone, -⟩
            simp at hnone

/-- Witness for the amended C5 at the command unknownverb with an empty
registry. -/
theorem c5_amended_unrecognized_iff_witness :
    sendCommandExecute (fun _ => none) trivDriver true ("unknownverb") =
      (.ok (unrecognizedResult ("unknownverb")), []) :=
  (c5_amended_unrecognized_iff (fun _ => none) trivDriver ("unknownverb")
    { name := "unknownverb", elementId := none, args := [] } rfl).mpr
    ⟨rfl, Or.inl (by decide)⟩

/-! ## Claims about the command grammar round trip (C6)

The claim quantifies over raw command strings matching the grammar
name [#id] [args...].  The grammar is formalized by a renderer from a
name, an optional id and a list of arguments (each either a plain token or
a double-quoted run), and the claim becomes a round trip: parsing a
rendered command recovers the lower-cased name, the id verbatim, and the
argument contents verbatim (quotes stripped, internal whitespace of quoted
runs retained, each maximal non-whitespace run one argument). -/

/-- One argument of the grammar: a plain token or a double-quoted run. -/
inductive CmdArg where
  | plain (s : String)
  | quoted (s : String)
deriving DecidableEq, Repr

/-- Characters an argument contributes to the command string. -/
def argChars : CmdArg → List Char
  | .plain s => s.data
  | .quoted s => '"' :: (s.data ++ ['"'])

/-- The argument value the parser is expected to produce. -/
def argContent : CmdArg → String
  | .plain s => s
  | .quoted s => s

/-- Characters of an argument list, single spaces between arguments. -/
def renderArgsL : List CmdArg → List Char
  | [] => []
  | a :: rest =>
    argChars a ++ (match rest with
      | [] => []
      | _ :: _ => ' ' :: renderArgsL rest)

/-- Characters of a full command of the grammar name [#id] [args...]. -/
def renderCommandL (name : List Char) (oid : Option (List Char))
    (args : List CmdArg) : List Char :=
  name ++ (match oid with | some i => ' ' :: '#' :: i | none => []) ++
    (match args with | [] => [] | _ :: _ => ' ' :: renderArgsL args)

/-- String form of a rendered command. -/
def renderCommand (name : String) (oid : Option String) (args : List CmdArg) : String :=
  String.mk (renderCommandL name.data (oid.map String.data) args)

/-- A grammar token (name or element id): nonempty, no whitespace. -/
def WFtoken (l : List Char) : Prop := l ≠ [] ∧ ∀ c ∈ l, nonWS c = true

/-- Well-formed argument: a plain token is nonempty with no whitespace and
no quote character; a quoted run has nonempty content with no quote
character and no newline. -/
def WFArg : CmdArg → Prop
  | .plain s => s.data ≠ [] ∧ ∀ c ∈ s.data, nonWS c = true ∧ c ≠ '"'
  | .quoted s => s.data ≠ [] ∧ ∀ c ∈ s.data, c ≠ '"' ∧ c ≠ '\n'

/-- When no id is present, a leading plain argument must not start with the
hash character, which the grammar would read as an element id. -/
def headNotHash : List CmdArg → Prop
  | CmdArg.plain s :: _ => s.data.head? ≠ some '#'
  | _ => True

/-- Models the lower-cased string the parser produces for a name. -/
def pyLower (s : String) : String := String.mk (lowerL s.data)

theorem takeWhile_append_all (p : Char → Bool) (l1 l2 : List Char)
    (h : ∀ c ∈ l1, p c = true) :
    (l1 ++ l2).takeWhile p = l1 ++ l2.takeWhile p := by
  induction l1 with
  | nil => simp
  | cons c cs ih =>
    have hc : p c = true := h c (List.mem_cons_self c cs)
    simp only [List.cons_append, List.takeWhile_cons_of_pos hc]
    rw [ih (fun d hd => h d (List.mem_cons_of_mem c hd))]

theorem dropWhile_append_all (p : Char → Bool) (l1 l2 : List Char)
    (h : ∀ c ∈ l1, p c = true) :
    (l1 ++ l2).dropWhile p = l2.dropWhile p := by
  induction l1 with
  | nil => simp
  | cons c cs ih =>
    have hc : p c = true := h c (List.mem_cons_self c cs)
    simp only [List.cons_append, List.dropWhile_cons_of_pos hc]
    exact ih (fun d hd => h d (List.mem_cons_of_mem c hd))

theorem takeWhile_all (p : Char → Bool) (l : List Char)
    (h : ∀ c ∈ l, p c = true) : l.takeWhile p = l := by
  have := takeWhile_append_all p l [] h
  simpa using this

theorem dropWhile_head_false (p : Char → Bool) (l : List Char)
    (h : ∀ c, l.head? = some c → p c = false) : l.dropWhile p = l := by
  cases l with
  | nil => rfl
  | cons c cs =>
    exact List.dropWhile_cons_of_neg (by simp [h c rfl])

/-- A character list with non-whitespace first and last characters is
unchanged by the Python strip. -/
theorem pstrip_eq_self (l : List Char)
    (h1 : ∀ c, l.head? = some c → isWS c = false)
    (h2 : ∀ c, l.getLast? = some c → isWS c = false) : pstrip l = l := by
  unfold pstrip
  rw [dropWhile_head_false isWS l h1]
  rw [dropWhile_head_false isWS l.reverse
    (fun c hc => h2 c (by rwa [List.head?_reverse] at hc))]
  exact List.reverse_reverse l

/-- A token with no quote characters is unchanged by the quote strip. -/
theorem pyStripQuotes_eq_self (l : List Char)
    (h : ∀ c ∈ l, c ≠ '"') : pyStripQuotes l = l := by
  unfold pyStripQuotes
  rw [dropWhile_head_false _ l
    (fun c hc => by simp [h c (List.mem_of_mem_head? (by simp [hc]))])]
  rw [dropWhile_head_false _ l.reverse
    (fun c hc => by
      have : c ∈ l := List.mem_reverse.mp (List.mem_of_mem_head? (by simp [hc]))
      simp [h c this])]
  exact List.reverse_reverse l

/-- The characters of an argument are never empty. -/
theorem argChars_ne_nil (a : CmdArg) (ha : WFArg a) : argChars a ≠ [] := by
  cases a with
  | plain s => exact ha.1
  | quoted s => simp [argChars]

/-- The characters of a nonempty argument list are never empty. -/
theorem renderArgsL_ne_nil (args : List CmdArg) (h : args ≠ [])
    (ha : ∀ a ∈ args, WFArg a) : renderArgsL args ≠ [] := by
  cases args with
  | nil => exact absurd rfl h
  | cons a rest =>
    have h1 := argChars_ne_nil a (ha a (List.mem_cons_self a rest))
    simp [renderArgsL]
    intro h2
    exact absurd h2 h1

theorem mem_of_getLastQ (l : List Char) (c : Char) (h : l.getLast? = some c) :
    c ∈ l := by
  have h2 : l.reverse.head? = some c := by rwa [List.head?_reverse]
  exact List.mem_reverse.mp (List.mem_of_mem_head? (by simp [h2]))

theorem tokenizeF_nil (fuel : Nat) : tokenizeF fuel [] = [] := by
  cases fuel <;> rfl

/-- One scan step of the tokenizer on a well-formed argument followed by a
separator tail (empty, or starting with whitespace): the argument content
is emitted and the scan continues on the tail with one unit of fuel
spent. -/
theorem tokenizeF_step (a : CmdArg) (T : List Char) (fuel : Nat) (hwa : WFArg a)
    (hT : ∀ c, T.head? = some c → isWS c = true) :
    tokenizeF (fuel + 1) (argChars a ++ T) =
      argContent a :: tokenizeF fuel T := by
  have hTtake : T.takeWhile nonWS = [] := by
    cases T with
    | nil => rfl
    | cons t ts =>
      exact List.takeWhile_cons_of_neg (by simp [nonWS, hT t rfl])
  have hTdrop : T.dropWhile nonWS = T :=
    dropWhile_head_false nonWS T (fun c hc => by simp [nonWS, hT c hc])
  rcases a with s | s
  · obtain ⟨hs, hsc⟩ := hwa
    rcases hsd : s.data with _ | ⟨c, cs'⟩
    · exact absurd hsd hs
    · have hcprops := hsc c (by rw [hsd]; exact List.mem_cons_self c cs')
      have hcs' : ∀ d ∈ cs', nonWS d = true ∧ d ≠ '"' :=
        fun d hd => hsc d (by rw [hsd]; exact List.mem_cons_of_mem c hd)
      have hx : argChars (CmdArg.plain s) ++ T = c :: (cs' ++ T) := by
        simp [argChars, hsd]
      rw [hx]
      simp only [tokenizeF]
      rw [if_neg (by simp [nonWS] at hcprops; simp [hcprops.1])]
      rw [if_neg (by rintro ⟨hq, -⟩; exact hcprops.2 hq)]
      have htk : (cs' ++ T).takeWhile nonWS = cs' := by
        rw [takeWhile_append_all nonWS cs' T (fun d hd => (hcs' d hd).1), hTtake,
          List.append_nil]
      have hdr : (cs' ++ T).dropWhile nonWS = T := by
        rw [dropWhile_append_all nonWS cs' T (fun d hd => (hcs' d hd).1), hTdrop]
      rw [htk, hdr]
      have hstr : pyStripQuotes (c :: cs') = c :: cs' := by
        apply pyStripQuotes_eq_self
        intro d hd
        rcases List.mem_cons.mp hd with rfl | hd2
        · exact hcprops.2
        · exact (hcs' d hd2).2
      rw [hstr]
      have : String.mk (c :: cs') = s := by
        rw [← hsd]
      rw [this, argContent]
  · obtain ⟨hs, hsc⟩ := hwa
    have hx : argChars (CmdArg.quoted s) ++ T = '"' :: (s.data ++ ('"' :: T)) := by
      simp [argChars]
    rw [hx]
    simp only [tokenizeF]
    rw [if_neg (by decide)]
    have hsq : ∀ d ∈ s.data, (fun d => decide (d ≠ '"')) d = true :=
      fun d hd => by simp [(hsc d hd).1]
    have htk : (s.data ++ ('"' :: T)).takeWhile (fun d => d ≠ '"') = s.data := by
      rw [takeWhile_append_all _ s.data _ hsq]
      rw [List.takeWhile_cons_of_neg (by simp)]
      exact List.append_nil s.data
    have hdr : (s.data ++ ('"' :: T)).dropWhile (fun d => d ≠ '"') = '"' :: T := by
      rw [dropWhile_append_all _ s.data _ hsq]
      exact List.dropWhile_cons_of_neg (by simp)
    rw [if_pos (by
      refine ⟨?_, ?_, ?_⟩
      · trivial
      · rw [htk]; exact hs
      · rw [hdr]; rfl)]
    rw [htk, hdr]
    simp only [List.tail_cons]
    rfl

/-- Tokenizing a rendered argument list with sufficient fuel yields exactly
the argument contents. -/
theorem tokenizeF_renderArgs (args : List CmdArg) :
    ∀ fuel, (renderArgsL args).length ≤ fuel → (∀ a ∈ args, WFArg a) →
    tokenizeF fuel (renderArgsL args) = args.map argContent := by
  induction args with
  | nil =>
    intro fuel _ _
    simp [renderArgsL, tokenizeF_nil]
  | cons a rest ih =>
    intro fuel hle ha
    have hwa : WFArg a := ha a (List.mem_cons_self a rest)
    have hrest : ∀ b ∈ rest, WFArg b := fun b hb => ha b (List.mem_cons_of_mem a hb)
    have hlen : 1 ≤ (argChars a).length := by
      have := argChars_ne_nil a hwa
      cases hc : argChars a with
      | nil => exact absurd hc this
      | cons x xs => simp
    cases rest with
    | nil =>
      have hrender : renderArgsL [a] = argChars a ++ [] := by
        simp [renderArgsL]
      rw [hrender] at hle ⊢
      cases fuel with
      | zero =>
        exfalso
        rw [List.append_nil] at hle
        omega
      | succ f =>
        rw [tokenizeF_step a [] f hwa (fun c hc => by cases hc)]
        simp [tokenizeF_nil]
    | cons b rest2 =>
      have hrender : renderArgsL (a :: b :: rest2) =
          argChars a ++ (' ' :: renderArgsL (b :: rest2)) := by
        simp [renderArgsL]
      have hRne : renderArgsL (b :: rest2) ≠ [] :=
        renderArgsL_ne_nil (b :: rest2) (by simp) hrest
      have hRlen : 1 ≤ (renderArgsL (b :: rest2)).length := by
        cases hc : renderArgsL (b :: rest2) with
        | nil => exact absurd hc hRne
        | cons x xs => simp
      rw [hrender] at hle ⊢
      cases fuel with
      | zero =>
        exfalso
        rw [List.length_append] at hle
        simp only [List.length_cons] at hle
        omega
      | succ f =>
        rw [tokenizeF_step a (' ' :: renderArgsL (b :: rest2)) f hwa
          (fun c hc => by
            injection hc with h2
            rw [← h2]
            decide)]
        cases f with
        | zero =>
          exfalso
          rw [List.length_append] at hle
          simp only [List.length_cons] at hle
          omega
        | succ f2 =>
          have hstep : tokenizeF (f2 + 1) (' ' :: renderArgsL (b :: rest2)) =
              tokenizeF f2 (renderArgsL (b :: rest2)) := by
            simp only [tokenizeF]
            rw [if_pos (by decide)]
          rw [hstep]
          rw [ih f2 (by
            rw [List.length_append] at hle
            simp only [List.length_cons] at hle
            omega) hrest]
          rfl

/-- The first character of a rendered argument list is never whitespace. -/
theorem renderArgsL_head_nonWS (args : List CmdArg) (ha : ∀ a ∈ args, WFArg a) :
    ∀ c, (renderArgsL args).head? = some c → isWS c = false := by
  intro c hc
  cases args with
  | nil => cases hc
  | cons a rest =>
    have hwa : WFArg a := ha a (List.mem_cons_self a rest)
    have hane : argChars a ≠ [] := argChars_ne_nil a hwa
    have hc2 : (argChars a).head? = some c := by
      have : (renderArgsL (a :: rest)).head? = (argChars a).head? := by
        simp only [renderArgsL, List.head?_append]
        cases hx : argChars a with
        | nil => exact absurd hx hane
        | cons x xs => rfl
      rw [this] at hc
      exact hc
    cases a with
    | plain s =>
      have hmem : c ∈ s.data := List.mem_of_mem_head? (by simp [argChars] at hc2; simp [hc2])
      have := (hwa.2 c hmem).1
      simpa [nonWS] using this
    | quoted s =>
      simp only [argChars, List.head?_cons, Option.some.injEq] at hc2
      rw [← hc2]
      decide

/-- The last character of a nonempty rendered argument list is never
whitespace. -/
theorem renderArgsL_getLast_nonWS (args : List CmdArg) (ha : ∀ a ∈ args, WFArg a) :
    ∀ c, (renderArgsL args).getLast? = some c → isWS c = false := by
  induction args with
  | nil => intro c hc; cases hc
  | cons a rest ih =>
    intro c hc
    have hwa : WFArg a := ha a (List.mem_cons_self a rest)
    have hrest : ∀ b ∈ rest, WFArg b := fun b hb => ha b (List.mem_cons_of_mem a hb)
    cases rest with
    | nil =>
      have hr : renderArgsL [a] = argChars a := by simp [renderArgsL]
      rw [hr] at hc
      cases a with
      | plain s =>
        have hmem : c ∈ s.data := mem_of_getLastQ _ c hc
        have := (hwa.2 c hmem).1
        simpa [nonWS] using this
      | quoted s =>
        have : argChars (CmdArg.quoted s) = ('"' :: s.data) ++ ['"'] := by
          simp [argChars]
        rw [this, List.getLast?_concat] at hc
        injection hc with h2
        rw [← h2]
        decide
    | cons b rest2 =>
      have hRne : renderArgsL (b :: rest2) ≠ [] :=
        renderArgsL_ne_nil (b :: rest2) (by simp) hrest
      have hr : renderArgsL (a :: b :: rest2) =
          argChars a ++ ([' '] ++ renderArgsL (b :: rest2)) := by
        simp [renderArgsL]
      rw [hr, List.getLast?_append_of_ne_nil _ (by simp [hRne]),
        List.getLast?_append_of_ne_nil _ hRne] at hc
      exact ih hrest c hc

/-- No character of a rendered argument list is a newline. -/
theorem renderArgsL_no_newline (args : List CmdArg) (ha : ∀ a ∈ args, WFArg a) :
    ∀ c ∈ renderArgsL args, c ≠ '\n' := by
  induction args with
  | nil => intro c hc; cases hc
  | cons a rest ih =>
    intro c hc
    have hwa : WFArg a := ha a (List.mem_cons_self a rest)
    have hrest : ∀ b ∈ rest, WFArg b := fun b hb => ha b (List.mem_cons_of_mem a hb)
    simp only [renderArgsL, List.mem_append] at hc
    rcases hc with hc | hc
    · cases a with
      | plain s =>
        have := (hwa.2 c hc).1
        intro hne
        rw [hne] at this
        simp [nonWS, isWS] at this
      | quoted s =>
        simp only [argChars, List.mem_cons, List.mem_append,
          List.mem_singleton] at hc
        rcases hc with rfl | hc | hc2
        · decide
        · exact (hwa.2 c hc).2
        · rcases hc2 with rfl | h0
          · decide
          · cases h0
    · cases rest with
      | nil => simp at hc
      | cons b rest2 =>
        simp only [List.mem_cons] at hc
        rcases hc with rfl | hc
        · decide
        · exact ih hrest c hc

theorem dropWhile_all (p : Char → Bool) (l : List Char)
    (h : ∀ c ∈ l, p c = true) : l.dropWhile p = [] := by
  have := dropWhile_append_all p l [] h
  simpa using this

theorem ne_nil_append (l1 l2 : List Char) (h : l1 ≠ []) : l1 ++ l2 ≠ [] := by
  cases l1 with
  | nil => exact absurd rfl h
  | cons c cs => simp

theorem append_head_nonWS (N rest : List Char) (hne : N ≠ [])
    (hall : ∀ c ∈ N, nonWS c = true) :
    ∀ c, (N ++ rest).head? = some c → isWS c = false := by
  intro c hc
  rw [List.head?_append] at hc
  cases hN0 : N.head? with
  | none =>
    rw [List.head?_eq_none_iff] at hN0
    exact absurd hN0 hne
  | some n0 =>
    rw [hN0] at hc
    simp only [Option.or_some, Option.some.injEq] at hc
    subst hc
    have hmem : n0 ∈ N := List.mem_of_mem_head? (by simp [hN0])
    have := hall n0 hmem
    simpa [nonWS] using this

/-- The first character of a rendered argument list never equals the hash
character when the list satisfies the leading-argument restriction. -/
theorem renderArgsL_head_ne_hash (args : List CmdArg) (ha : ∀ a ∈ args, WFArg a)
    (hh : headNotHash args) :
    ∀ c, (renderArgsL args).head? = some c → c ≠ '#' := by
  intro c hc
  cases args with
  | nil => cases hc
  | cons a rest =>
    have hwa : WFArg a := ha a (List.mem_cons_self a rest)
    have hane : argChars a ≠ [] := argChars_ne_nil a hwa
    have hc2 : (argChars a).head? = some c := by
      have : (renderArgsL (a :: rest)).head? = (argChars a).head? := by
        simp only [renderArgsL, List.head?_append]
        cases hx : argChars a with
        | nil => exact absurd hx hane
        | cons x xs => rfl
      rw [this] at hc
      exact hc
    cases a with
    | plain s =>
      intro hne
      apply hh
      rw [← hne]
      exact hc2
    | quoted s =>
      simp only [argChars, List.head?_cons, Option.some.injEq] at hc2
      rw [← hc2]
      decide

/-- Stripping a single leading space from a rendered argument list. -/
theorem pstrip_space_render (args : List CmdArg) (_hne : args ≠ [])
    (ha : ∀ a ∈ args, WFArg a) :
    pstrip (' ' :: renderArgsL args) = renderArgsL args := by
  unfold pstrip
  rw [List.dropWhile_cons_of_pos (by decide)]
  rw [dropWhile_head_false isWS _ (renderArgsL_head_nonWS args ha)]
  rw [dropWhile_head_false isWS _
    (fun c hc => renderArgsL_getLast_nonWS args ha c
      (by rwa [List.head?_reverse] at hc))]
  exact List.reverse_reverse (renderArgsL args)

theorem takeWhile_isWS_render (args : List CmdArg) (ha : ∀ a ∈ args, WFArg a) :
    (renderArgsL args).takeWhile isWS = [] := by
  cases hR : renderArgsL args with
  | nil => rfl
  | cons r0 R2 =>
    refine List.takeWhile_cons_of_neg ?_
    have := renderArgsL_head_nonWS args ha r0 (by rw [hR]; rfl)
    simp [this]

/-- Parsing a rendered command that carries an element id recovers the
lower-cased name, the id verbatim, and the argument contents. -/
theorem parseCmdL_render_some (N i : List Char) (args : List CmdArg)
    (hN : WFtoken N) (hi : WFtoken i) (ha : ∀ a ∈ args, WFArg a) :
    parseCmdL (renderCommandL N (some i) args) =
      some ⟨String.mk (lowerL N), some (String.mk i), args.map argContent⟩ := by
  obtain ⟨hNne, hNall⟩ := hN
  obtain ⟨hine, hiall⟩ := hi
  cases args with
  | nil =>
    have hL : renderCommandL N (some i) [] = N ++ (' ' :: '#' :: i) := by
      simp [renderCommandL]
    rw [hL]
    have hstrip : pstrip (N ++ (' ' :: '#' :: i)) = N ++ (' ' :: '#' :: i) := by
      apply pstrip_eq_self
      · exact append_head_nonWS N _ hNne hNall
      · intro c hc
        rw [List.getLast?_append_of_ne_nil _ (by simp)] at hc
        rw [show (' ' :: '#' :: i) = [' ', '#'] ++ i from rfl] at hc
        rw [List.getLast?_append_of_ne_nil _ hine] at hc
        have hmem : c ∈ i := mem_of_getLastQ i c hc
        have := hiall c hmem
        simpa [nonWS] using this
    have hne : N ++ (' ' :: '#' :: i) ≠ [] := ne_nil_append N _ hNne
    have htake : (N ++ (' ' :: '#' :: i)).takeWhile nonWS = N := by
      rw [takeWhile_append_all nonWS N _ hNall]
      rw [List.takeWhile_cons_of_neg (by decide)]
      exact List.append_nil N
    have hdrop : (N ++ (' ' :: '#' :: i)).dropWhile nonWS = ' ' :: '#' :: i := by
      rw [dropWhile_append_all nonWS N _ hNall]
      exact List.dropWhile_cons_of_neg (by decide)
    have hws1 : (' ' :: '#' :: i).takeWhile isWS = [' '] := by
      rw [List.takeWhile_cons_of_pos (by decide)]
      rw [List.takeWhile_cons_of_neg (by decide)]
    have hr2 : (' ' :: '#' :: i).dropWhile isWS = '#' :: i := by
      rw [List.dropWhile_cons_of_pos (by decide)]
      exact List.dropWhile_cons_of_neg (by decide)
    have htaki : i.takeWhile nonWS = i := takeWhile_all nonWS i hiall
    have hdri : i.dropWhile nonWS = [] := dropWhile_all nonWS i hiall
    unfold parseCmdL
    simp only [hstrip]
    rw [if_neg hne]
    simp only [htake, hdrop, hws1, hr2, List.tail_cons, htaki, hdri]
    rw [if_pos ⟨by simp, rfl, hine⟩]
    rfl
  | cons a rest =>
    have hRne : renderArgsL (a :: rest) ≠ [] :=
      renderArgsL_ne_nil (a :: rest) (by simp) ha
    have hL : renderCommandL N (some i) (a :: rest) =
        N ++ (' ' :: '#' :: (i ++ ' ' :: renderArgsL (a :: rest))) := by
      simp [renderCommandL]
    rw [hL]
    have hstrip : pstrip (N ++ (' ' :: '#' :: (i ++ ' ' :: renderArgsL (a :: rest)))) =
        N ++ (' ' :: '#' :: (i ++ ' ' :: renderArgsL (a :: rest))) := by
      apply pstrip_eq_self
      · exact append_head_nonWS N _ hNne hNall
      · intro c hc
        rw [List.getLast?_append_of_ne_nil _ (by simp)] at hc
        rw [show (' ' :: '#' :: (i ++ ' ' :: renderArgsL (a :: rest))) =
          [' ', '#'] ++ (i ++ ' ' :: renderArgsL (a :: rest)) from rfl] at hc
        rw [List.getLast?_append_of_ne_nil _
          (ne_nil_append i _ hine)] at hc
        rw [List.getLast?_append_of_ne_nil _ (by simp)] at hc
        rw [show (' ' :: renderArgsL (a :: rest)) =
          [' '] ++ renderArgsL (a :: rest) from rfl] at hc
        rw [List.getLast?_append_of_ne_nil _ hRne] at hc
        exact renderArgsL_getLast_nonWS (a :: rest) ha c hc
    have hne : N ++ (' ' :: '#' :: (i ++ ' ' :: renderArgsL (a :: rest))) ≠ [] :=
      ne_nil_append N _ hNne
    have htake : (N ++ (' ' :: '#' :: (i ++ ' ' :: renderArgsL (a :: rest)))).takeWhile nonWS
        = N := by
      rw [takeWhile_append_all nonWS N _ hNall]
      rw [List.takeWhile_cons_of_neg (by decide)]
      exact List.append_nil N
    have hdrop : (N ++ (' ' :: '#' :: (i ++ ' ' :: renderArgsL (a :: rest)))).dropWhile nonWS
        = ' ' :: '#' :: (i ++ ' ' :: renderArgsL (a :: rest)) := by
      rw [dropWhile_append_all nonWS N _ hNall]
      exact List.dropWhile_cons_of_neg (by decide)
    have hws1 : (' ' :: '#' :: (i ++ ' ' :: renderArgsL (a :: rest))).takeWhile isWS
        = [' '] := by
      rw [List.takeWhile_cons_of_pos (by decide)]
      rw [List.takeWhile_cons_of_neg (by decide)]
    have hr2 : (' ' :: '#' :: (i ++ ' ' :: renderArgsL (a :: rest))).dropWhile isWS
        = '#' :: (i ++ ' ' :: renderArgsL (a :: rest)) := by
      rw [List.dropWhile_cons_of_pos (by decide)]
      exact List.dropWhile_cons_of_neg (by decide)
    have htaki : (i ++ ' ' :: renderArgsL (a :: rest)).takeWhile nonWS = i := by
      rw [takeWhile_append_all nonWS i _ hiall]
      rw [List.takeWhile_cons_of_neg (by decide)]
      exact List.append_nil i
    have hdri : (i ++ ' ' :: renderArgsL (a :: rest)).dropWhile nonWS
        = ' ' :: renderArgsL (a :: rest) := by
      rw [dropWhile_append_all nonWS i _ hiall]
      exact List.dropWhile_cons_of_neg (by decide)
    have hg3 : (' ' :: renderArgsL (a :: rest)).takeWhile (fun c => c ≠ '\n')
        = ' ' :: renderArgsL (a :: rest) := by
      apply takeWhile_all
      intro c hc
      rcases List.mem_cons.mp hc with rfl | hc2
      · decide
      · simp [renderArgsL_no_newline (a :: rest) ha c hc2]
    have hps : pstrip (' ' :: renderArgsL (a :: rest)) = renderArgsL (a :: rest) :=
      pstrip_space_render (a :: rest) (by simp) ha
    have htok : tokenize (renderArgsL (a :: rest)) = (a :: rest).map argContent := by
      unfold tokenize
      exact tokenizeF_renderArgs (a :: rest) _ le_rfl ha
    unfold parseCmdL
    simp only [hstrip]
    rw [if_neg hne]
    simp only [htake, hdrop, hws1, hr2, List.tail_cons, htaki, hdri]
    rw [if_pos ⟨by simp, rfl, hine⟩]
    rw [hg3, hps, htok]

/-- Parsing a rendered command without an element id recovers the
lower-cased name and the argument contents. -/
theorem parseCmdL_render_none (N : List Char) (args : List CmdArg)
    (hN : WFtoken N) (ha : ∀ a ∈ args, WFArg a) (hh : headNotHash args) :
    parseCmdL (renderCommandL N none args) =
      some ⟨String.mk (lowerL N), none, args.map argContent⟩ := by
  obtain ⟨hNne, hNall⟩ := hN
  cases args with
  | nil =>
    have hL : renderCommandL N none [] = N := by simp [renderCommandL]
    rw [hL]
    have hstrip : pstrip N = N := by
      apply pstrip_eq_self
      · intro c hc
        have hmem : c ∈ N := List.mem_of_mem_head? (by simp [hc])
        have := hNall c hmem
        simpa [nonWS] using this
      · intro c hc
        have hmem : c ∈ N := mem_of_getLastQ N c hc
        have := hNall c hmem
        simpa [nonWS] using this
    have htake : N.takeWhile nonWS = N := takeWhile_all nonWS N hNall
    have hdrop : N.dropWhile nonWS = [] := dropWhile_all nonWS N hNall
    unfold parseCmdL
    simp only [hstrip]
    rw [if_neg hNne]
    simp only [htake, hdrop, List.takeWhile_nil]
    rw [if_neg (by rintro ⟨h, -⟩; exact h rfl)]
    rfl
  | cons a rest =>
    have hRne : renderArgsL (a :: rest) ≠ [] :=
      renderArgsL_ne_nil (a :: rest) (by simp) ha
    have hL : renderCommandL N none (a :: rest) =
        N ++ (' ' :: renderArgsL (a :: rest)) := by
      simp [renderCommandL]
    rw [hL]
    have hstrip : pstrip (N ++ (' ' :: renderArgsL (a :: rest))) =
        N ++ (' ' :: renderArgsL (a :: rest)) := by
      apply pstrip_eq_self
      · exact append_head_nonWS N _ hNne hNall
      · intro c hc
        rw [List.getLast?_append_of_ne_nil _ (by simp)] at hc
        rw [show (' ' :: renderArgsL (a :: rest)) =
          [' '] ++ renderArgsL (a :: rest) from rfl] at hc
        rw [List.getLast?_append_of_ne_nil _ hRne] at hc
        exact renderArgsL_getLast_nonWS (a :: rest) ha c hc
    have hne : N ++ (' ' :: renderArgsL (a :: rest)) ≠ [] :=
      ne_nil_append N _ hNne
    have htake : (N ++ (' ' :: renderArgsL (a :: rest))).takeWhile nonWS = N := by
      rw [takeWhile_append_all nonWS N _ hNall]
      rw [List.takeWhile_cons_of_neg (by decide)]
      exact List.append_nil N
    have hdrop : (N ++ (' ' :: renderArgsL (a :: rest))).dropWhile nonWS
        = ' ' :: renderArgsL (a :: rest) := by
      rw [dropWhile_append_all nonWS N _ hNall]
      exact List.dropWhile_cons_of_neg (by decide)
    have hws1 : (' ' :: renderArgsL (a :: rest)).takeWhile isWS = [' '] := by
      rw [List.takeWhile_cons_of_pos (by decide)]
      rw [takeWhile_isWS_render (a :: rest) ha]
    have hr2 : (' ' :: renderArgsL (a :: rest)).dropWhile isWS
        = renderArgsL (a :: rest) := by
      rw [List.dropWhile_cons_of_pos (by decide)]
      exact dropWhile_head_false isWS _ (renderArgsL_head_nonWS (a :: rest) ha)
    have hg3 : (' ' :: renderArgsL (a :: rest)).takeWhile (fun c => c ≠ '\n')
        = ' ' :: renderArgsL (a :: rest) := by
      apply takeWhile_all
      intro c hc
      rcases List.mem_cons.mp hc with rfl | hc2
      · decide
      · simp [renderArgsL_no_newline (a :: rest) ha c hc2]
    have hps : pstrip (' ' :: renderArgsL (a :: rest)) = renderArgsL (a :: rest) :=
      pstrip_space_render (a :: rest) (by simp) ha
    have htok : tokenize (renderArgsL (a :: rest)) = (a :: rest).map argContent := by
      unfold tokenize
      exact tokenizeF_renderArgs (a :: rest) _ le_rfl ha
    unfold parseCmdL
    simp only [hstrip]
    rw [if_neg hne]
    simp only [htake, hdrop, hws1, hr2]
    rw [if_neg (by
      rintro ⟨-, hhash, -⟩
      exact renderArgsL_head_ne_hash (a :: rest) ha hh '#' hhash rfl)]
    rw [hg3, hps, htok]

/-- C6: for every raw command string matching the grammar
name [#id] [args...] (rendered from a well-formed name, optional id and
argument list), the parser lower-cases the command name, passes the element
id and arguments through verbatim, strips the surrounding quotes of a
double-quoted run while retaining its internal whitespace, and treats any
maximal run of non-whitespace as one argument. -/
theorem c6_parser_round_trip (name : String) (oid : Option String)
    (args : List CmdArg)
    (hn : WFtoken name.data)
    (hi : ∀ i, oid = some i → WFtoken i.data)
    (ha : ∀ a ∈ args, WFArg a)
    (hh : oid = none → headNotHash args) :
    parseCommand (renderCommand name oid args) =
      some { name := pyLower name, elementId := oid,
             args := args.map argContent } := by
  cases oid with
  | none => exact parseCmdL_render_none name.data args hn ha (hh rfl)
  | some i => exact parseCmdL_render_some name.data i.data args hn (hi i rfl) ha

/-- Witness for C6 at the example command with a quoted argument. -/
theorem c6_parser_round_trip_witness :
    parseCommand (renderCommand ("type") (some ("search"))
        [CmdArg.quoted ("hello world")]) =
      some { name := pyLower ("type"), elementId := some ("search"),
             args := [CmdArg.quoted ("hello world")].map argContent } ∧
    renderCommand ("type") (some ("search")) [CmdArg.quoted ("hello world")] =
      "type #search \"hello world\"" ∧
    pyLower ("type") = "type" ∧
    [CmdArg.quoted ("hello world")].map argContent = ["hello world"] ∧
    parseCommand ("type #search \"hello world\"") =
      some { name := "type", elementId := some ("search"),
             args := ["hello world"] } :=
  ⟨c6_parser_round_trip ("type") (some ("search")) [CmdArg.quoted ("hello world")]
    ⟨by decide, by decide⟩
    (by
      intro i h
      injection h with h2
      subst h2
      exact ⟨by decide, by decide⟩)
    (by
      intro a hax
      obtain rfl := List.mem_singleton.mp hax
      exact ⟨by decide, by decide⟩)
    (fun h => nomatch h),
   by decide, by decide, rfl, by decide⟩
